import Mathlib

/-!
Verification of the Command Info view-model of the `vscode-powershell`
webview (`src/controls/commandInfoViewModel.ts`, together with the
expression-building part of `CommandInfoViewProvider.onReceivedSubmitMessage`
in `src/features/GetCommands.ts`).

The TypeScript code is shallowly embedded: the mutable
`CommandInfoViewModel` class becomes explicit state passing over a
`ViewState` record, renderer/webview-API calls become an explicit event
list, and a thrown JavaScript error becomes an `error` field in the step
result.  JavaScript numbers holding PowerShell positions are embedded as
`Int` (they are always integral), strings as `String`, and the runtime
value of a form field (`string | boolean`) as `JSValue`.

`Array.prototype.sort` (stable since ES2019) with a consistent comparator
is embedded as Mathlib's stable `List.insertionSort`; `localeCompare` is
embedded as code-unit lexicographic comparison (the names compared are
plain ASCII parameter names).  Opaque `object`-typed members of the
source records (`ICommand.parameters`, `CommandParameterInfo.attributes`)
carry no behavior in the embedded code paths and are omitted.
-/

/-- Embeds `CommandParameterInfo` from `src/features/GetCommands.ts`.
The opaque `attributes: object[]` member is omitted. -/
structure CommandParameterInfo where
  aliases : List String
  helpMessage : Option String
  isDynamic : Bool
  isMandatory : Bool
  name : String
  parameterType : String
  position : Int
  valueFromPipeline : Bool
  valueFromPipelineByPropertyName : Bool
  valueFromRemainingArguments : Bool
deriving DecidableEq, Repr

/-- Embeds `CommandParameterSetInfo` from `src/features/GetCommands.ts`. -/
structure CommandParameterSetInfo where
  isDefault : Bool
  name : String
  parameters : List CommandParameterInfo
deriving DecidableEq, Repr

/-- Embeds `ICommand` from `src/features/GetCommands.ts`.
The opaque `parameters: Record<string, object>` member is omitted. -/
structure ICommand where
  name : String
  moduleName : String
  defaultParameterSet : String
  parameterSets : List CommandParameterSetInfo
deriving DecidableEq, Repr

/-- Runtime value of a form field: JavaScript `string | boolean`. -/
inductive JSValue where
  | str (s : String)
  | bool (b : Bool)
deriving DecidableEq, Repr

/-- The `inputType` discriminant of `CommandInfoParameterInput`. -/
inductive InputType where
  | text
  | checkbox
deriving DecidableEq, Repr

/-- Embeds `CommandInfoParameterInput` from `commandInfoViewModel.ts`.
The TypeScript discriminated union ties `value`'s static type to
`inputType`; at runtime the discriminant and the value are separate
members, which is what the embedding records. -/
structure CommandInfoParameterInput where
  name : String
  required : Bool
  common : Bool
  tooltip : String
  position : Option Int
  inputType : InputType
  value : JSValue
deriving DecidableEq, Repr

/-- Embeds `CommandInfoSetCommandViewArg` from `commandInfoViewModel.ts`. -/
structure CommandInfoSetCommandViewArg where
  commandName : String
  moduleName : String
  moduleLoaded : Bool
  parameterSets : List String
  selectedParameterSet : String
deriving DecidableEq, Repr

/-- Embeds `CommandInfoViewState`: the three state members of the
`CommandInfoViewModel` class.  The `Record<string, ...>` map becomes an
insertion-ordered association list; the view-model builds it with
pairwise-distinct keys (one per parameter set). -/
structure ViewState where
  command : Option ICommand
  selectedParameterSet : String
  parameterSetInputs : List (String × List CommandInfoParameterInput)
deriving DecidableEq, Repr

/-- Initial field values of the class: `command = null`,
`selectedParameterSet = ""`, `parameterSetInputs = {}`. -/
def initialViewState : ViewState :=
  { command := none, selectedParameterSet := "", parameterSetInputs := [] }

/-- Embeds the submit action union `"run" | "insert" | "copy"`. -/
inductive SubmitAction where
  | run
  | insert
  | copy
deriving DecidableEq, Repr

/-- Messages the view-model posts through the webview API
(`CommandInfoViewMessage`, outbound direction). -/
inductive OutMessage where
  | setState (newState : ViewState)
  | submit (action : SubmitAction) (commandName : String)
      (parameters : List (String × JSValue))
  | importModule (moduleName : String)
deriving DecidableEq, Repr

/-- Observable effects of one view-model operation: calls into the
injected `CommandInfoViewFuncs` renderer and `postMessage` calls.
`setParameterInputs` carries an `Option` because the source reads
`this.parameterSetInputs[this.selectedParameterSet]`, which is
`undefined` when the selected name is not a key. -/
inductive ViewEvent where
  | setCommandElements (arg : CommandInfoSetCommandViewArg)
  | setParameterInputs (inputs : Option (List CommandInfoParameterInput))
  | postMessage (msg : OutMessage)
deriving DecidableEq, Repr

/-- Result of running one operation: the state left behind, the emitted
events in order, and the thrown error if any (events already emitted
before a throw are kept, and the state is the one at throw time). -/
structure StepResult where
  state : ViewState
  events : List ViewEvent
  error : Option String
deriving DecidableEq, Repr

/-- The `commonParameterNames` allow-list from `commandInfoViewModel.ts`. -/
def commonParameterNames : List String :=
  [ "Debug", "ErrorAction", "ErrorVariable", "InformationAction",
    "InformationVariable", "OutVariable", "OutBuffer", "PipelineVariable",
    "ProgressAction", "Verbose", "WarningAction", "WarningVariable" ]

/-- `pre` is a prefix of `s`, on the strings' code units; embeds
`String.prototype.startsWith`. -/
def strStartsWith (s pre : String) : Bool :=
  pre.data.isPrefixOf s.data

/-- `t.split(",")[0]` of the source: the part of `t` before the first
comma (all of `t` when it has no comma). -/
def shortTypeName (t : String) : String :=
  String.mk (t.data.takeWhile fun c => c ≠ ',')

/-- Embeds `createParameterInputObject`. -/
def createParameterInputObject (parameter : CommandParameterInfo) :
    CommandInfoParameterInput :=
  let isSwitch :=
    strStartsWith parameter.parameterType "System.Management.Automation.SwitchParameter"
  let tooltip :=
    ("Type: " ++ shortTypeName parameter.parameterType)
      ++ (if parameter.position ≥ 0
          then "\nPosition: " ++ toString parameter.position else "")
      ++ (if parameter.isMandatory then "\nMandatory" else "\nOptional")
      ++ (if parameter.valueFromPipeline
          then "\nCan receive value from pipeline" else "")
  { name := parameter.name
    required := parameter.isMandatory
    common := commonParameterNames.contains parameter.name
    tooltip := tooltip
    position := if parameter.position ≥ 0 then some parameter.position else none
    inputType := if isSwitch then .checkbox else .text
    value := if isSwitch then .bool false else .str "" }

/-- Lexicographic comparison of char lists; embeds the effect of
`String.prototype.localeCompare` on the ASCII parameter names compared
by the view-model (negative / zero / positive result). -/
def charListCompare : List Char → List Char → Int
  | [], [] => 0
  | [], _ :: _ => -1
  | _ :: _, [] => 1
  | a :: as, b :: bs =>
    if a < b then -1 else if b < a then 1 else charListCompare as bs

/-- `a.localeCompare(b)` of the source, on the strings' code units. -/
def localeCompare (a b : String) : Int :=
  charListCompare a.data b.data

/-- Embeds `compareParameterInputObjects`.  The three `if` branches of
the source are exhaustive over the null-ness of the two positions, which
the `match` mirrors. -/
def compareParameterInputObjects (a b : CommandInfoParameterInput) : Int :=
  if a.common ≠ b.common then
    if b.common then -1 else 1
  else
    match a.position, b.position with
    | some pa, some pb => pa - pb
    | none, none => localeCompare a.name b.name
    | some _, none => -1
    | none, some _ => 1

/-- The non-strict order induced by the comparator, as used by
`Array.prototype.sort`: `a` may precede `b` iff the comparator is ≤ 0. -/
def parameterInputOrder (a b : CommandInfoParameterInput) : Prop :=
  compareParameterInputObjects a b ≤ 0

instance : DecidableRel parameterInputOrder :=
  fun a b => inferInstanceAs (Decidable (compareParameterInputObjects a b ≤ 0))

/-- Embeds `.sort(compareParameterInputObjects)`.  `Array.prototype.sort`
is stable (ES2019) and the comparator is consistent, so the result is
the unique stable sorted permutation, which stable insertion sort
produces. -/
def sortParameterInputs (l : List CommandInfoParameterInput) :
    List CommandInfoParameterInput :=
  List.insertionSort parameterInputOrder l

/-- Keys of a `Record` embedded as an association list. -/
def recordKeys {β : Type} (m : List (String × β)) : List String :=
  m.map (·.1)

/-- `obj[key]` on a `Record` embedded as an association list (the
view-model only builds records with distinct keys). -/
def recordGet {β : Type} (m : List (String × β)) (k : String) : Option β :=
  (m.find? (·.1 = k)).map (·.2)

/-- The fallback parameter set pushed by `onCommandChanged` when
`command.parameterSets` is empty. -/
def fallbackParameterSet : CommandParameterSetInfo :=
  { name := "__AllParameterSets", isDefault := true, parameters := [] }

/-- The argument `viewSetCommandElements` passes to
`view.setCommandElements`, computed from a (non-null) command, the
selected set name and the inputs map. -/
def setCommandElementsArg (command : ICommand) (selected : String)
    (inputs : List (String × List CommandInfoParameterInput)) :
    CommandInfoSetCommandViewArg :=
  let hasParameters := 0 < ((inputs.map (·.2)).flatten).length
  { commandName := command.name
    moduleName := command.moduleName
    moduleLoaded := command.moduleName = "" ∨ hasParameters
    parameterSets := command.parameterSets.map (·.name)
    selectedParameterSet := selected }

/-- Embeds `onCommandChanged`.  The source first assigns
`this.command = command` and then pushes the fallback set into the very
`command.parameterSets` array it aliases, so the stored command contains
the fallback set; the functional embedding applies the push before
storing.  The `JSON.stringify` deep-equality guard becomes structural
equality (the provider always serializes commands with one fixed key
order). -/
def onCommandChanged (command : ICommand) (s : ViewState) : StepResult :=
  if s.command = some command then
    { state := s, events := [], error := none }
  else
    let command :=
      if command.parameterSets.isEmpty then
        { command with parameterSets := [fallbackParameterSet] }
      else command
    let inputs := command.parameterSets.map fun parameterSet =>
      (parameterSet.name,
       sortParameterInputs (parameterSet.parameters.map createParameterInputObject))
    let selected :=
      if command.defaultParameterSet ≠ "" then command.defaultParameterSet
      else
        match command.parameterSets.find? (·.isDefault) with
        | some set => set.name
        | none => (command.parameterSets.headD fallbackParameterSet).name
    let s' : ViewState :=
      { command := some command
        selectedParameterSet := selected
        parameterSetInputs := inputs }
    { state := s'
      events :=
        [ .setCommandElements (setCommandElementsArg command selected inputs),
          .setParameterInputs (recordGet inputs selected) ]
      error := none }

/-- Embeds `persistState`: posts the `setState` message carrying the
current three state members. -/
def persistState (s : ViewState) : StepResult :=
  { state := s, events := [.postMessage (.setState s)], error := none }

/-- Embeds `onSetState`: overwrites all three state members with the
incoming state, then re-runs both view notifications;
`viewSetCommandElements` throws when the incoming command is `null`,
after the state members were already overwritten. -/
def onSetState (newState : ViewState) (_current : ViewState) : StepResult :=
  match newState.command with
  | none =>
    { state := newState, events := [], error := some "this.command is null" }
  | some command =>
    { state := newState
      events :=
        [ .setCommandElements
            (setCommandElementsArg command newState.selectedParameterSet
              newState.parameterSetInputs),
          .setParameterInputs
            (recordGet newState.parameterSetInputs newState.selectedParameterSet) ]
      error := none }

/-- Embeds `onSelectedParameterSetChanged`. -/
def onSelectedParameterSetChanged (selected : String) (s : ViewState) :
    StepResult :=
  if s.selectedParameterSet = selected then
    { state := s, events := [], error := none }
  else
    let s' := { s with selectedParameterSet := selected }
    { state := s'
      events :=
        [ .setParameterInputs (recordGet s'.parameterSetInputs selected),
          .postMessage (.setState s') ]
      error := none }

/-- `array.find((p) => p.name === name)` followed by the in-place
`parameterInput.value = value` write: replaces the value of the first
field with the given name, returning `none` when no field matches. -/
def setFirstValue (name : String) (value : JSValue) :
    List CommandInfoParameterInput → Option (List CommandInfoParameterInput)
  | [] => none
  | f :: rest =>
    if f.name = name then some ({ f with value := value } :: rest)
    else (setFirstValue name value rest).map (f :: ·)

/-- Embeds `onParameterValueChanged`.  Reading `.find` off `undefined`
(selected name not a key) is a JavaScript `TypeError`; a missing field
name throws the explicit `Error` of the source. -/
def onParameterValueChanged (name : String) (value : JSValue)
    (s : ViewState) : StepResult :=
  match recordGet s.parameterSetInputs s.selectedParameterSet with
  | none =>
    { state := s, events := []
      error := some "TypeError: this.parameterSetInputs[this.selectedParameterSet] is undefined" }
  | some inputs =>
    match setFirstValue name value inputs with
    | none =>
      { state := s, events := []
        error := some ("Parameter " ++ name
          ++ " not found in selected parameter set " ++ s.selectedParameterSet) }
    | some inputs' =>
      let s' :=
        { s with parameterSetInputs := s.parameterSetInputs.map fun e =>
            if e.1 = s.selectedParameterSet then (e.1, inputs') else e }
      { state := s', events := [.postMessage (.setState s')], error := none }

/-- JavaScript truthiness of a `string | boolean` value, as used by the
`.filter((parameterInput) => parameterInput.value)` in `onSubmit`. -/
def truthy : JSValue → Bool
  | .str s => s ≠ ""
  | .bool b => b

/-- The `parameters` payload `onSubmit` posts: name/value pairs of the
truthy-valued fields of the selected set, in stored order. -/
def submitParameters (inputs : List CommandInfoParameterInput) :
    List (String × JSValue) :=
  (inputs.filter fun f => truthy f.value).map fun f => (f.name, f.value)

/-- Embeds `onSubmit`. -/
def onSubmit (action : SubmitAction) (s : ViewState) : StepResult :=
  match s.command with
  | none => { state := s, events := [], error := some "this.command is null" }
  | some command =>
    match recordGet s.parameterSetInputs s.selectedParameterSet with
    | none =>
      { state := s, events := []
        error := some "TypeError: this.parameterSetInputs[this.selectedParameterSet] is undefined" }
    | some inputs =>
      { state := s
        events :=
          [.postMessage (.submit action command.name (submitParameters inputs))]
        error := none }

/-- Embeds the expression construction of
`CommandInfoViewProvider.onReceivedSubmitMessage` in
`src/features/GetCommands.ts`: flag token `-Name` for every pair, the
value token kept only when it is a string (booleans of switch
parameters are filtered out), all joined by single spaces after the
command name. -/
def buildSubmitExpression (commandName : String)
    (parameters : List (String × JSValue)) : String :=
  String.intercalate " "
    (commandName ::
      ((parameters.flatMap fun p => [JSValue.str ("-" ++ p.1), p.2]).filterMap
        fun v => match v with | .str s => some s | .bool _ => none))

/-- The invariant of §3 of the spec: the selected parameter set name is
a key of the per-set field map. -/
def selectedIsKey (s : ViewState) : Prop :=
  s.selectedParameterSet ∈ recordKeys s.parameterSetInputs

instance : DecidablePred selectedIsKey :=
  fun s => inferInstanceAs
    (Decidable (s.selectedParameterSet ∈ recordKeys s.parameterSetInputs))

/-- Spec-side ordering between two fields, as the spec words it: a
common=false field precedes a common=true field; within equal
commonness, positioned fields come first, ascending by position, and
null-position fields follow, ascending by name. -/
def fieldOrderedPair (a b : CommandInfoParameterInput) : Prop :=
  (a.common = false ∧ b.common = true) ∨
  (a.common = b.common ∧
    ((∃ pa pb, a.position = some pa ∧ b.position = some pb ∧ pa ≤ pb) ∨
     (a.position.isSome ∧ b.position = none) ∨
     (a.position = none ∧ b.position = none ∧ localeCompare a.name b.name ≤ 0)))

/-- Spec-side join-with-newline used to state the tooltip layout. -/
def joinLines : List String → String
  | [] => ""
  | [x] => x
  | x :: y :: xs => x ++ "\n" ++ joinLines (y :: xs)

/-- A field whose runtime value type agrees with its `inputType`
discriminant (always true for fields built by the view-model). -/
def typeConsistent (f : CommandInfoParameterInput) : Bool :=
  match f.inputType, f.value with
  | .text, .str _ => true
  | .checkbox, .bool _ => true
  | _, _ => false

/-- Spec-side tokens a field contributes to the built expression: a
bare flag for a boolean field holding `true`, flag plus literal value
for a text field holding a non-empty string, nothing otherwise. -/
def specTokens (f : CommandInfoParameterInput) : List String :=
  match f.inputType with
  | .checkbox => if f.value = .bool true then ["-" ++ f.name] else []
  | .text =>
    match f.value with
    | .str v => if v = "" then [] else ["-" ++ f.name, v]
    | .bool _ => []

/-- Builds the claim C4 example field (name, position, common). -/
def exampleField (n : String) (p : Option Int) (c : Bool) :
    CommandInfoParameterInput :=
  { name := n, required := false, common := c, tooltip := "", position := p,
    inputType := .text, value := .str "" }

/-- The six fields of the claim C4 example, in declaration order. -/
def c4ExampleFields : List CommandInfoParameterInput :=
  [ exampleField "aaa" none true, exampleField "yyy" none false,
    exampleField "bbb" none false, exampleField "xxx" (some 1) false,
    exampleField "ccc" none true, exampleField "zzz" (some 0) false ]

/-- A command with one parameter set but a `defaultParameterSet` name
that is not among the set names. -/
def commandBogusDefault : ICommand :=
  { name := "Invoke-Bogus", moduleName := "", defaultParameterSet := "Bogus",
    parameterSets := [{ isDefault := true, name := "A", parameters := [] }] }

/-- A command with two parameter sets and no default markers. -/
def commandTwoSets : ICommand :=
  { name := "Invoke-TwoSets", moduleName := "",
    defaultParameterSet := "",
    parameterSets :=
      [ { isDefault := false, name := "Foo", parameters := [] },
        { isDefault := true, name := "Bar", parameters := [] } ] }

/-- A command with zero parameter sets and an empty default. -/
def commandNoSets : ICommand :=
  { name := "Invoke-NoSets", moduleName := "SampleModule",
    defaultParameterSet := "", parameterSets := [] }

/-- A command with zero parameter sets but a non-empty default name. -/
def commandNoSetsBogusDefault : ICommand :=
  { name := "Invoke-NoSetsBogus", moduleName := "",
    defaultParameterSet := "Foo", parameterSets := [] }

/-- A loaded state with one empty parameter set named `A`. -/
def stateOneSet : ViewState :=
  { command := some { name := "Invoke-OneSet", moduleName := "",
                      defaultParameterSet := "A",
                      parameterSets := [{ isDefault := true, name := "A",
                                          parameters := [] }] }
    selectedParameterSet := "A"
    parameterSetInputs := [("A", [])] }

/-- The claim C5 example fields: a set text field, a checked boolean
field and an empty text field, in stored order. -/
def c5ExampleFields : List CommandInfoParameterInput :=
  [ { name := "Path", required := true, common := false, tooltip := "",
      position := some 0, inputType := .text, value := .str "foo.txt" },
    { name := "Verbose", required := false, common := true, tooltip := "",
      position := none, inputType := .checkbox, value := .bool true },
    { name := "OutVariable", required := false, common := true, tooltip := "",
      position := none, inputType := .text, value := .str "" } ]

/-- A loaded state holding the claim C5 example fields. -/
def c5ExampleState : ViewState :=
  { command := some { name := "Invoke-Example", moduleName := "",
                      defaultParameterSet := "Default",
                      parameterSets := [] }
    selectedParameterSet := "Default"
    parameterSetInputs := [("Default", c5ExampleFields)] }

/-- A loaded state with two sets both containing a text field named
`Shared`, used to exercise the frame property of field edits. -/
def stateTwoSetsShared : ViewState :=
  { command := some { name := "Invoke-Shared", moduleName := "",
                      defaultParameterSet := "S1", parameterSets := [] }
    selectedParameterSet := "S1"
    parameterSetInputs :=
      [ ("S1", [ { name := "Shared", required := false, common := false,
                   tooltip := "t1", position := some 0, inputType := .text,
                   value := .str "" } ]),
        ("S2", [ { name := "Shared", required := false, common := false,
                   tooltip := "t2", position := some 0, inputType := .text,
                   value := .str "old" } ]) ] }

/-- A state whose command is `null` but whose other members are
populated, as persisted before any command was loaded. -/
def stateNullCommand : ViewState :=
  { command := none, selectedParameterSet := "X",
    parameterSetInputs := [("X", [])] }

lemma charListCompare_nil_le (z : List Char) : charListCompare [] z ≤ 0 := by
  cases z <;> simp [charListCompare]

lemma charListCompare_cons_le {a b : Char} {as bs : List Char} :
    charListCompare (a :: as) (b :: bs) ≤ 0 ↔
      a < b ∨ (a = b ∧ charListCompare as bs ≤ 0) := by
  by_cases hab : a < b
  · simp [charListCompare, hab]
  · by_cases hba : b < a
    · have hne : a ≠ b := by intro h; subst h; exact lt_irrefl a hba
      simp [charListCompare, hab, hba, hne]
    · have heq : a = b := le_antisymm (le_of_not_lt hba) (le_of_not_lt hab)
      simp [charListCompare, hab, hba, heq]

lemma charListCompare_le_trans :
    ∀ {x y z : List Char}, charListCompare x y ≤ 0 →
      charListCompare y z ≤ 0 → charListCompare x z ≤ 0 := by
  intro x
  induction x with
  | nil => intro y z _ _; exact charListCompare_nil_le z
  | cons a as ih =>
    intro y z hxy hyz
    cases y with
    | nil => simp [charListCompare] at hxy
    | cons b bs =>
      cases z with
      | nil => simp [charListCompare] at hyz
      | cons c cs =>
        rw [charListCompare_cons_le] at hxy hyz ⊢
        rcases hxy with hab | ⟨hab, hrec⟩
        · rcases hyz with hbc | ⟨hbc, _⟩
          · exact Or.inl (lt_trans hab hbc)
          · exact Or.inl (hbc ▸ hab)
        · rcases hyz with hbc | ⟨hbc, hrec2⟩
          · exact Or.inl (hab ▸ hbc)
          · exact Or.inr ⟨hab.trans hbc, ih hrec hrec2⟩

lemma charListCompare_swap :
    ∀ x y : List Char, charListCompare y x = - charListCompare x y := by
  intro x
  induction x with
  | nil => intro y; cases y <;> simp [charListCompare]
  | cons a as ih =>
    intro y
    cases y with
    | nil => simp [charListCompare]
    | cons b bs =>
      by_cases hab : a < b
      · have hba : ¬ b < a := lt_asymm hab
        simp [charListCompare, hab, hba]
      · by_cases hba : b < a
        · simp [charListCompare, hab, hba]
        · simp [charListCompare, hab, hba, ih bs]

lemma charListCompare_le_total (x y : List Char) :
    charListCompare x y ≤ 0 ∨ charListCompare y x ≤ 0 := by
  rw [charListCompare_swap x y]
  omega

lemma posNameLe_def (a b : CommandInfoParameterInput) :
    parameterInputOrder a b ↔
      (a.common = false ∧ b.common = true) ∨
      (a.common = b.common ∧
        match a.position, b.position with
        | some pa, some pb => pa ≤ pb
        | none, none => localeCompare a.name b.name ≤ 0
        | some _, none => True
        | none, some _ => False) := by
  unfold parameterInputOrder compareParameterInputObjects
  rcases hca : a.common <;> rcases hcb : b.common <;>
    rcases hpa : a.position with _ | pa <;> rcases hpb : b.position with _ | pb <;>
    simp [hca, hcb, hpa, hpb]

/-- The comparator order is total, as `Array.prototype.sort` requires of
a consistent comparator. -/
instance : IsTotal CommandInfoParameterInput parameterInputOrder := by
  constructor
  intro a b
  rw [posNameLe_def, posNameLe_def]
  by_cases hc : a.common = b.common
  · rcases hpa : a.position with _ | pa <;> rcases hpb : b.position with _ | pb <;>
      simp [hc, hpa, hpb]
    · exact charListCompare_le_total a.name.data b.name.data
    · omega
  · rcases hca : a.common <;> rcases hcb : b.common <;>
      simp [hca, hcb] at hc ⊢

/-- The comparator order is transitive. -/
instance : IsTrans CommandInfoParameterInput parameterInputOrder := by
  constructor
  intro a b c hab hbc
  rw [posNameLe_def] at hab hbc ⊢
  rcases hab with ⟨haf, hbt⟩ | ⟨hcab, hpab⟩
  · rcases hbc with ⟨hbf, _⟩ | ⟨hcbc, hpbc⟩
    · rw [hbt] at hbf; exact absurd hbf (by simp)
    · exact Or.inl ⟨haf, hcbc ▸ hbt⟩
  · rcases hbc with ⟨hbf, hct⟩ | ⟨hcbc, hpbc⟩
    · exact Or.inl ⟨hcab.trans hbf, hct⟩
    · refine Or.inr ⟨hcab.trans hcbc, ?_⟩
      rcases hpa : a.position with _ | pa <;> rcases hpb : b.position with _ | pb <;>
        rcases hpc : c.position with _ | pc <;>
        simp [hpa, hpb, hpc] at hpab hpbc ⊢
      · exact charListCompare_le_trans hpab hpbc
      · omega

/-- The comparator order implies the spec-side pairwise ordering. -/
lemma parameterInputOrder_implies_fieldOrderedPair
    {a b : CommandInfoParameterInput} (h : parameterInputOrder a b) :
    fieldOrderedPair a b := by
  rw [posNameLe_def] at h
  unfold fieldOrderedPair
  rcases h with ⟨haf, hbt⟩ | ⟨hc, hp⟩
  · exact Or.inl ⟨haf, hbt⟩
  · refine Or.inr ⟨hc, ?_⟩
    rcases hpa : a.position with _ | pa <;> rcases hpb : b.position with _ | pb <;>
      simp [hpa, hpb] at hp ⊢
    · exact hp
    · exact hp
lemma recordKeys_cons {β : Type} (e : String × β) (es : List (String × β)) :
    recordKeys (e :: es) = e.1 :: recordKeys es := rfl

lemma recordGet_cons {β : Type} (e : String × β) (es : List (String × β))
    (k : String) :
    recordGet (e :: es) k = if e.1 = k then some e.2 else recordGet es k := by
  by_cases h : e.1 = k <;> simp [recordGet, List.find?_cons, h]

lemma recordGet_mem_of_some {β : Type} {m : List (String × β)} {k : String}
    {v : β} (h : recordGet m k = some v) : k ∈ recordKeys m := by
  induction m with
  | nil => simp [recordGet] at h
  | cons e es ih =>
    rw [recordGet_cons] at h
    rw [recordKeys_cons]
    by_cases he : e.1 = k
    · exact he ▸ List.mem_cons_self _ _
    · rw [if_neg he] at h
      exact List.mem_cons_of_mem _ (ih h)

lemma recordGet_some_of_mem {β : Type} {m : List (String × β)} {k : String}
    (h : k ∈ recordKeys m) : ∃ v, recordGet m k = some v := by
  induction m with
  | nil => simp [recordKeys] at h
  | cons e es ih =>
    rw [recordGet_cons]
    by_cases he : e.1 = k
    · exact ⟨e.2, by rw [if_pos he]⟩
    · rw [recordKeys_cons] at h
      rcases List.mem_cons.mp h with h' | h'
      · exact absurd h'.symm he
      · rcases ih h' with ⟨v, hv⟩
        exact ⟨v, by rw [if_neg he]; exact hv⟩

lemma recordKeys_map_replace {β : Type} (m : List (String × β))
    (sel : String) (x : β) :
    recordKeys (m.map fun e => if e.1 = sel then (e.1, x) else e)
      = recordKeys m := by
  induction m with
  | nil => rfl
  | cons e es ih =>
    by_cases he : e.1 = sel <;>
      simp only [List.map_cons, recordKeys_cons, he, if_pos, if_neg,
        if_true, if_false] <;> rw [ih]

lemma recordGet_map_replace_ne {β : Type} (m : List (String × β))
    (sel k : String) (x : β) (h : k ≠ sel) :
    recordGet (m.map fun e => if e.1 = sel then (e.1, x) else e) k
      = recordGet m k := by
  induction m with
  | nil => rfl
  | cons e es ih =>
    by_cases he : e.1 = sel
    · have hek : ¬ e.1 = k := fun h' => h (h'.symm.trans he)
      simp only [List.map_cons, if_pos he, recordGet_cons, hek, if_neg,
        if_false, ih]
    · by_cases hk : e.1 = k
      · rw [List.map_cons, if_neg he, recordGet_cons, if_pos hk,
          recordGet_cons, if_pos hk]
      · rw [List.map_cons, if_neg he, recordGet_cons, if_neg hk,
          recordGet_cons, if_neg hk, ih]

lemma recordGet_map_replace_self {β : Type} (m : List (String × β))
    (sel : String) (x : β) (h : sel ∈ recordKeys m) :
    recordGet (m.map fun e => if e.1 = sel then (e.1, x) else e) sel
      = some x := by
  induction m with
  | nil => simp [recordKeys] at h
  | cons e es ih =>
    by_cases he : e.1 = sel
    · simp only [List.map_cons, if_pos he, recordGet_cons, if_pos]
    · rw [recordKeys_cons] at h
      rcases List.mem_cons.mp h with h' | h'
      · exact absurd h'.symm he
      · simp only [List.map_cons, if_neg he, recordGet_cons, he, if_neg,
          if_false]
        exact ih h'

lemma find?_eq_head_filter {α : Type} (p : α → Bool) :
    ∀ l : List α, l.find? p = (l.filter p).head? := by
  intro l
  induction l with
  | nil => rfl
  | cons a as ih =>
    rcases h : p a
    · rw [List.find?_cons_of_neg _ (by rw [h]; exact Bool.false_ne_true),
        List.filter_cons_of_neg (by rw [h]; exact Bool.false_ne_true), ih]
    · rw [List.find?_cons_of_pos _ h, List.filter_cons_of_pos h, List.head?_cons]

lemma setFirstValue_decompose (name : String) (v : JSValue) :
    ∀ inputs : List CommandInfoParameterInput,
      name ∈ inputs.map (·.name) →
      ∃ pre f post, inputs = pre ++ f :: post ∧
        (∀ g ∈ pre, g.name ≠ name) ∧ f.name = name ∧
        setFirstValue name v inputs = some (pre ++ { f with value := v } :: post) := by
  intro inputs
  induction inputs with
  | nil => intro h; simp at h
  | cons g gs ih =>
    intro h
    by_cases hg : g.name = name
    · exact ⟨[], g, gs, by simp, by simp, hg, by simp [setFirstValue, hg]⟩
    · have hmem : name ∈ gs.map (·.name) := by
        rw [List.map_cons] at h
        rcases List.mem_cons.mp h with h' | h'
        · exact absurd h'.symm hg
        · exact h'
      rcases ih hmem with ⟨pre, f, post, hsplit, hpre, hf, hset⟩
      refine ⟨g :: pre, f, post, by rw [hsplit]; rfl, ?_, hf, ?_⟩
      · intro x hx
        rcases List.mem_cons.mp hx with h' | h'
        · exact h' ▸ hg
        · exact hpre x h'
      · simp [setFirstValue, hg, hset]

lemma submitParameters_cons (f : CommandInfoParameterInput)
    (fs : List CommandInfoParameterInput) :
    submitParameters (f :: fs) =
      (if truthy f.value then [(f.name, f.value)] else [])
        ++ submitParameters fs := by
  unfold submitParameters
  rw [List.filter_cons]
  by_cases h : truthy f.value <;> simp [h]

lemma submitParameters_tokens (fields : List CommandInfoParameterInput)
    (h : ∀ f ∈ fields, typeConsistent f = true) :
    ((submitParameters fields).flatMap fun p =>
        [JSValue.str ("-" ++ p.1), p.2]).filterMap
      (fun v => match v with | .str s => some s | .bool _ => none)
    = fields.flatMap specTokens := by
  induction fields with
  | nil => rfl
  | cons f fs ih =>
    have hf := h f (List.mem_cons_self f fs)
    have hfs := fun g hg => h g (List.mem_cons_of_mem f hg)
    rw [submitParameters_cons, List.flatMap_append, List.filterMap_append,
      List.flatMap_cons, ih hfs]
    rcases hty : f.inputType <;> rcases hval : f.value with s | b <;>
      simp [typeConsistent, hty, hval] at hf <;> clear hf
    · by_cases hs : s = "" <;>
        simp [specTokens, truthy, hty, hval, hs]
    · cases b <;> simp [specTokens, truthy, hty, hval]

lemma recordKeys_inputsMap (sets : List CommandParameterSetInfo) :
    recordKeys (sets.map fun ps =>
      (ps.name, sortParameterInputs (ps.parameters.map createParameterInputObject)))
      = sets.map (·.name) := by
  induction sets with
  | nil => rfl
  | cons a as ih => rw [List.map_cons, recordKeys_cons, List.map_cons, ih]

lemma onCommandChanged_state (c : ICommand) (s : ViewState)
    (hg : ¬ s.command = some c) (hne : c.parameterSets ≠ []) :
    (onCommandChanged c s).state =
      { command := some c
        selectedParameterSet :=
          if c.defaultParameterSet ≠ "" then c.defaultParameterSet
          else
            match c.parameterSets.find? (·.isDefault) with
            | some set => set.name
            | none => (c.parameterSets.headD fallbackParameterSet).name
        parameterSetInputs := c.parameterSets.map fun ps =>
          (ps.name,
           sortParameterInputs (ps.parameters.map createParameterInputObject)) } := by
  have hb : c.parameterSets.isEmpty = false := by
    rw [List.isEmpty_eq_false]
    exact hne
  unfold onCommandChanged
  rw [if_neg hg]
  simp only [hb, Bool.false_eq_true, if_false]

lemma onCommandChanged_state_empty (c : ICommand) (s : ViewState)
    (hg : ¬ s.command = some c) (he : c.parameterSets = []) :
    (onCommandChanged c s).state =
      { command := some { c with parameterSets := [fallbackParameterSet] }
        selectedParameterSet :=
          if c.defaultParameterSet ≠ "" then c.defaultParameterSet
          else "__AllParameterSets"
        parameterSetInputs := [("__AllParameterSets", [])] } := by
  have hb : c.parameterSets.isEmpty = true := by
    rw [List.isEmpty_iff]
    exact he
  unfold onCommandChanged
  rw [if_neg hg]
  simp only [hb, if_true]
  congr 1

lemma onCommandChanged_guard (c : ICommand) (s : ViewState)
    (hg : s.command = some c) :
    onCommandChanged c s = { state := s, events := [], error := none } := by
  unfold onCommandChanged
  rw [if_pos hg]

lemma selectedIsKey_onCommandChanged (c : ICommand) (s : ViewState)
    (hg : ¬ s.command = some c)
    (hd : c.defaultParameterSet = "" ∨
      c.defaultParameterSet ∈ c.parameterSets.map (·.name)) :
    selectedIsKey (onCommandChanged c s).state := by
  by_cases he : c.parameterSets = []
  · rw [onCommandChanged_state_empty c s hg he]
    unfold selectedIsKey
    rcases hd with hd | hd
    · simp [hd, recordKeys]
    · rw [he] at hd
      simp at hd
  · rw [onCommandChanged_state c s hg he]
    unfold selectedIsKey
    simp only [recordKeys_inputsMap]
    by_cases hdef : c.defaultParameterSet = ""
    · rw [if_neg (by simp [hdef])]
      rcases hfind : c.parameterSets.find? (·.isDefault) with _ | set
      · simp only [hfind]
        rcases hl : c.parameterSets with _ | ⟨a, as⟩
        · exact absurd hl he
        · simp [hl]
      · simp only [hfind]
        have hmem : set ∈ c.parameterSets := List.mem_of_find?_eq_some hfind
        exact List.mem_map_of_mem _ hmem
    · rw [if_pos hdef]
      rcases hd with hd | hd
      · exact absurd hd hdef
      · exact hd

lemma newlinePositionSplit :
    ("\nPosition: " : String) = "\n" ++ "Position: " := by decide

lemma newlineMandatorySplit :
    ("\nMandatory" : String) = "\n" ++ "Mandatory" := by decide

lemma newlineOptionalSplit :
    ("\nOptional" : String) = "\n" ++ "Optional" := by decide

lemma newlinePipelineSplit :
    ("\nCan receive value from pipeline" : String)
      = "\n" ++ "Can receive value from pipeline" := by decide

lemma createParameterInputObject_tooltip (p : CommandParameterInfo) :
    (createParameterInputObject p).tooltip =
      joinLines
        ( ["Type: " ++ shortTypeName p.parameterType]
          ++ (if p.position ≥ 0 then ["Position: " ++ toString p.position] else [])
          ++ [if p.isMandatory then "Mandatory" else "Optional"]
          ++ (if p.valueFromPipeline
              then ["Can receive value from pipeline"] else []) ) := by
  unfold createParameterInputObject
  by_cases hp : p.position ≥ 0
  · rcases hm : p.isMandatory <;> rcases hv : p.valueFromPipeline <;>
      simp [hp, hm, hv, joinLines, newlineMandatorySplit,
        newlineOptionalSplit, newlinePipelineSplit, String.append_assoc] <;>
      rw [newlinePositionSplit, String.append_assoc]
  · rcases hm : p.isMandatory <;> rcases hv : p.valueFromPipeline <;>
      simp [hp, hm, hv, joinLines, newlineMandatorySplit,
        newlineOptionalSplit, newlinePipelineSplit, String.append_assoc]

/-- Claim C1, counterexample: for a command whose non-empty
`defaultParameterSet` (`"Bogus"`) is not among its set names, the loaded
selection is `"Bogus"`, which is not a key of the per-set field map — so
the selected name is neither a key nor subject to the claimed
first-`isDefault` fallback. -/
theorem c1_counterexample :
    (onCommandChanged commandBogusDefault initialViewState).state.selectedParameterSet
      = "Bogus" ∧
    ¬ selectedIsKey (onCommandChanged commandBogusDefault initialViewState).state := by
  decide

/-- Claim C1 (amended): after a load that passes the deep-equality
guard, on a command with at least one parameter set, the selected name
equals `defaultParameterSet` whenever that is non-empty (whether or not
it is among the set names); when it is empty, the selection is the first
set whose `isDefault` is true, else the first set in declaration order;
and the selected name is a key of the per-set field map provided
`defaultParameterSet` is empty or present among the set names. -/
theorem c1_selected_set_after_load (c : ICommand) (s : ViewState)
    (hguard : ¬ s.command = some c) (hne : c.parameterSets ≠ []) :
    (c.defaultParameterSet ≠ "" →
        (onCommandChanged c s).state.selectedParameterSet = c.defaultParameterSet) ∧
    (c.defaultParameterSet = "" →
        (onCommandChanged c s).state.selectedParameterSet =
          ((c.parameterSets.filter (·.isDefault)).map (·.name)
            ++ c.parameterSets.map (·.name)).headD "") ∧
    ((c.defaultParameterSet = "" ∨
        c.defaultParameterSet ∈ c.parameterSets.map (·.name)) →
        selectedIsKey (onCommandChanged c s).state) := by
  refine ⟨?_, ?_, fun hd => selectedIsKey_onCommandChanged c s hguard hd⟩
  · intro hd
    rw [onCommandChanged_state c s hguard hne]
    simp [hd]
  · intro hd
    rw [onCommandChanged_state c s hguard hne]
    simp only [ne_eq, hd, not_true_eq_false, if_false]
    rw [find?_eq_head_filter]
    rcases hf : c.parameterSets.filter (·.isDefault) with _ | ⟨a, as⟩
    · simp only [hf, List.head?_nil]
      rcases hl : c.parameterSets with _ | ⟨b, bs⟩
      · exact absurd hl hne
      · simp [hl]
    · simp [hf]

/-- Claim C1 witness: loading a command with sets `Foo` (not default)
and `Bar` (default) and an empty `defaultParameterSet` selects `Bar`,
which is a key of the map. -/
theorem c1_selected_set_after_load_witness :
    (onCommandChanged commandTwoSets initialViewState).state.selectedParameterSet
      = "Bar" ∧
    selectedIsKey (onCommandChanged commandTwoSets initialViewState).state := by
  have h := c1_selected_set_after_load commandTwoSets initialViewState
    (by decide) (by decide)
  exact ⟨(h.2.1 (by decide)).trans (by decide), h.2.2 (Or.inl (by decide))⟩

/-- Claim C2, counterexample: from a state satisfying the invariant,
`onSelectedParameterSetChanged` with a name that is not a key completes
without error yet leaves the selection outside the key set — so not
every accepted input preserves the invariant. -/
theorem c2_counterexample :
    selectedIsKey stateOneSet ∧
    (onSelectedParameterSetChanged "B" stateOneSet).error = none ∧
    ¬ selectedIsKey (onSelectedParameterSetChanged "B" stateOneSet).state := by
  decide

/-- Claim C2 (amended): each view-model operation preserves the
invariant that the selected name is a key of the per-set map, under the
caller contracts of the spec: the selection change is given an existing
key; the restored state itself satisfies the invariant; and the loaded
command's `defaultParameterSet` is empty or among its set names.
`onParameterValueChanged` preserves the invariant unconditionally. -/
theorem c2_invariant_preservation (s : ViewState) (hInv : selectedIsKey s) :
    (∀ sel, sel ∈ recordKeys s.parameterSetInputs →
        selectedIsKey (onSelectedParameterSetChanged sel s).state) ∧
    (∀ name v, selectedIsKey (onParameterValueChanged name v s).state) ∧
    (∀ ns, selectedIsKey ns → selectedIsKey (onSetState ns s).state) ∧
    (∀ c, (c.defaultParameterSet = "" ∨
            c.defaultParameterSet ∈ c.parameterSets.map (·.name)) →
        selectedIsKey (onCommandChanged c s).state) := by
  refine ⟨?_, ?_, ?_, ?_⟩
  · intro sel hsel
    unfold onSelectedParameterSetChanged
    by_cases hg : s.selectedParameterSet = sel
    · rw [if_pos hg]
      exact hInv
    · rw [if_neg hg]
      exact hsel
  · intro name v
    unfold onParameterValueChanged
    split
    · exact hInv
    · split
      · exact hInv
      · unfold selectedIsKey
        simp only [recordKeys_map_replace]
        exact hInv
  · intro ns hns
    unfold onSetState
    split
    · exact hns
    · exact hns
  · intro c hd
    by_cases hg : s.command = some c
    · rw [onCommandChanged_guard c s hg]
      exact hInv
    · exact selectedIsKey_onCommandChanged c s hg hd

/-- Claim C2 witness: on a two-set state the invariant survives both a
selection change to the other key and a field edit. -/
theorem c2_invariant_preservation_witness :
    selectedIsKey (onSelectedParameterSetChanged "S2" stateTwoSetsShared).state ∧
    selectedIsKey (onParameterValueChanged "Shared" (JSValue.str "x")
      stateTwoSetsShared).state :=
  ⟨(c2_invariant_preservation stateTwoSetsShared (by decide)).1 "S2" (by decide),
   (c2_invariant_preservation stateTwoSetsShared (by decide)).2.1 "Shared"
     (JSValue.str "x")⟩

/-- Claim C3, counterexample: for a command with zero parameter sets the
fallback push mutates the stored command, so it is no longer deep-equal
to the command the provider sent; a second load with the identical
command is not skipped and re-issues both renderer notifications. -/
theorem c3_counterexample :
    (onCommandChanged commandNoSets initialViewState).state.command
      ≠ some commandNoSets ∧
    (onCommandChanged commandNoSets
        (onCommandChanged commandNoSets initialViewState).state).events.length
      = 2 := by
  decide

/-- Claim C3 (amended): for every command with at least one declared
parameter set, a second load with a deep-equal command leaves the whole
`ViewState` unchanged and issues no renderer notifications. -/
theorem c3_load_idempotent (c : ICommand) (s : ViewState)
    (hne : c.parameterSets ≠ []) :
    (onCommandChanged c (onCommandChanged c s).state).state
      = (onCommandChanged c s).state ∧
    (onCommandChanged c (onCommandChanged c s).state).events = [] := by
  by_cases hg : s.command = some c
  · rw [onCommandChanged_guard c s hg]
    rw [onCommandChanged_guard c s hg]
    exact ⟨rfl, rfl⟩
  · have h1 := onCommandChanged_state c s hg hne
    have hg2 : (onCommandChanged c s).state.command = some c := by
      rw [h1]
    rw [onCommandChanged_guard c _ hg2]
    exact ⟨rfl, rfl⟩

/-- Claim C3 witness: reloading the two-set command is a silent no-op. -/
theorem c3_load_idempotent_witness :
    (onCommandChanged commandTwoSets
        (onCommandChanged commandTwoSets initialViewState).state).events = [] :=
  (c3_load_idempotent commandTwoSets initialViewState (by decide)).2

/-- Claim C4: sorting with the field comparator yields a sequence in
which every field precedes every later field per the spec order —
common=false before common=true, and within equal commonness positioned
fields ascending by position before null-position fields ascending by
name; in particular the six-field example of the spec sorts to
zzz, xxx, bbb, yyy, aaa, ccc. -/
theorem c4_sort_ordering :
    (∀ l, List.Pairwise fieldOrderedPair (sortParameterInputs l)) ∧
    (sortParameterInputs c4ExampleFields).map (·.name)
      = ["zzz", "xxx", "bbb", "yyy", "aaa", "ccc"] := by
  constructor
  · intro l
    have h := List.sorted_insertionSort parameterInputOrder l
    exact List.Pairwise.imp
      (fun hab => parameterInputOrder_implies_fieldOrderedPair hab) h
  · decide

/-- Claim C5: a submit posts the selected set's truthy-valued fields in
stored order, and the provider-built expression is the command name
followed, per field in stored order, by a bare `-Name` flag for a
boolean field holding exactly `true` and by `-Name value` for a text
field holding a non-empty string, all joined with single spaces. -/
theorem c5_submit_expression (action : SubmitAction) (s : ViewState)
    (c : ICommand) (fields : List CommandInfoParameterInput)
    (hc : s.command = some c)
    (hf : recordGet s.parameterSetInputs s.selectedParameterSet = some fields)
    (hw : ∀ f ∈ fields, typeConsistent f = true) :
    (onSubmit action s).error = none ∧
    (onSubmit action s).events =
      [ViewEvent.postMessage
        (OutMessage.submit action c.name (submitParameters fields))] ∧
    buildSubmitExpression c.name (submitParameters fields) =
      String.intercalate " " (c.name :: fields.flatMap specTokens) := by
  refine ⟨?_, ?_, ?_⟩
  · simp [onSubmit, hc, hf]
  · simp [onSubmit, hc, hf]
  · unfold buildSubmitExpression
    rw [submitParameters_tokens fields hw]

/-- Claim C5 witness: the spec example — Path `"foo.txt"`, Verbose
`true`, OutVariable `""` — builds
`"Invoke-Example -Path foo.txt -Verbose"`. -/
theorem c5_submit_expression_witness :
    (onSubmit SubmitAction.copy c5ExampleState).error = none ∧
    buildSubmitExpression "Invoke-Example" (submitParameters c5ExampleFields)
      = "Invoke-Example -Path foo.txt -Verbose" := by
  have h := c5_submit_expression SubmitAction.copy c5ExampleState
    { name := "Invoke-Example", moduleName := "",
      defaultParameterSet := "Default", parameterSets := [] }
    c5ExampleFields (by decide) (by decide) (by decide)
  exact ⟨h.1, h.2.2.trans (by decide)⟩

/-- Claim C6, counterexample: a zero-set command with a non-empty
`defaultParameterSet` still gets the single fallback key, but the
selected set is the bogus default, not the fallback name. -/
theorem c6_counterexample :
    (onCommandChanged commandNoSetsBogusDefault
        initialViewState).state.parameterSetInputs
      = [("__AllParameterSets", [])] ∧
    (onCommandChanged commandNoSetsBogusDefault
        initialViewState).state.selectedParameterSet
      ≠ "__AllParameterSets" := by
  decide

/-- Claim C6 (amended): after loading a command with zero parameter
sets, the per-set field map has exactly one key — the reserved name
`"__AllParameterSets"` — mapped to an empty field sequence, and that
fallback name becomes the selected set provided `defaultParameterSet`
is empty. -/
theorem c6_fallback_set (c : ICommand) (s : ViewState)
    (hguard : ¬ s.command = some c) (he : c.parameterSets = []) :
    (onCommandChanged c s).state.parameterSetInputs
      = [("__AllParameterSets", [])] ∧
    (c.defaultParameterSet = "" →
      (onCommandChanged c s).state.selectedParameterSet
        = "__AllParameterSets") := by
  rw [onCommandChanged_state_empty c s hguard he]
  exact ⟨rfl, fun hd => by simp [hd]⟩

/-- Claim C6 witness: the module sample command with no sets loads the
fallback set as sole key and selection. -/
theorem c6_fallback_set_witness :
    (onCommandChanged commandNoSets initialViewState).state.parameterSetInputs
      = [("__AllParameterSets", [])] ∧
    (onCommandChanged commandNoSets initialViewState).state.selectedParameterSet
      = "__AllParameterSets" := by
  have h := c6_fallback_set commandNoSets initialViewState (by decide) (by decide)
  exact ⟨h.1, h.2 (by decide)⟩

/-- Claim C7: field derivation is a pure function of the parameter
descriptor; the input kind is checkbox exactly when the type name
starts with the switch-parameter marker; a checkbox field initializes
to `false` and a text field to `""`; and the tooltip joins with
newlines, in order, the short type name, the position (omitted whenever
the position is negative, as the unpositioned sentinel is), the
mandatory/optional word, and the pipeline note only when
`valueFromPipeline` is true. -/
theorem c7_derive_field (p : CommandParameterInfo) :
    ((createParameterInputObject p).inputType = InputType.checkbox ↔
      strStartsWith p.parameterType
        "System.Management.Automation.SwitchParameter" = true) ∧
    ((createParameterInputObject p).inputType = InputType.checkbox →
      (createParameterInputObject p).value = JSValue.bool false) ∧
    ((createParameterInputObject p).inputType = InputType.text →
      (createParameterInputObject p).value = JSValue.str "") ∧
    (createParameterInputObject p).tooltip =
      joinLines
        ( ["Type: " ++ shortTypeName p.parameterType]
          ++ (if p.position ≥ 0 then ["Position: " ++ toString p.position] else [])
          ++ [if p.isMandatory then "Mandatory" else "Optional"]
          ++ (if p.valueFromPipeline
              then ["Can receive value from pipeline"] else []) ) := by
  refine ⟨?_, ?_, ?_, createParameterInputObject_tooltip p⟩
  all_goals {
    unfold createParameterInputObject
    rcases hs : strStartsWith p.parameterType
      "System.Management.Automation.SwitchParameter" <;> simp [hs]
  }

/-- Claim C8: a field edit succeeds when the selected set exists and
contains the named field, changes nothing but that one field's value —
command, selection, the key list, and every other set's field sequence
are untouched, and within the selected set only the first field with
the given name changes, in its `value` component alone. -/
theorem c8_set_field_value_frame (s : ViewState) (name : String) (v : JSValue)
    (inputs : List CommandInfoParameterInput)
    (hsel : recordGet s.parameterSetInputs s.selectedParameterSet = some inputs)
    (hname : name ∈ inputs.map (·.name)) :
    (onParameterValueChanged name v s).error = none ∧
    (onParameterValueChanged name v s).state.command = s.command ∧
    (onParameterValueChanged name v s).state.selectedParameterSet
      = s.selectedParameterSet ∧
    recordKeys (onParameterValueChanged name v s).state.parameterSetInputs
      = recordKeys s.parameterSetInputs ∧
    (∀ k, k ≠ s.selectedParameterSet →
      recordGet (onParameterValueChanged name v s).state.parameterSetInputs k
        = recordGet s.parameterSetInputs k) ∧
    (∃ pre f post, inputs = pre ++ f :: post ∧ (∀ g ∈ pre, g.name ≠ name) ∧
      f.name = name ∧
      recordGet (onParameterValueChanged name v s).state.parameterSetInputs
          s.selectedParameterSet
        = some (pre ++ { f with value := v } :: post)) := by
  rcases setFirstValue_decompose name v inputs hname with
    ⟨pre, f, post, hsplit, hpre, hfname, hset⟩
  have hmem : s.selectedParameterSet ∈ recordKeys s.parameterSetInputs :=
    recordGet_mem_of_some hsel
  simp only [onParameterValueChanged, hsel, hset]
  refine ⟨trivial, trivial, trivial, recordKeys_map_replace _ _ _, ?_, ?_⟩
  · intro k hk
    exact recordGet_map_replace_ne _ _ _ _ hk
  · exact ⟨pre, f, post, hsplit, hpre, hfname,
      recordGet_map_replace_self _ _ _ hmem⟩

/-- Claim C8 witness: editing `Shared` in the selected set `S1` leaves
the same-named field of set `S2` untouched. -/
theorem c8_set_field_value_frame_witness :
    (onParameterValueChanged "Shared" (JSValue.str "new")
        stateTwoSetsShared).error = none ∧
    recordGet (onParameterValueChanged "Shared" (JSValue.str "new")
        stateTwoSetsShared).state.parameterSetInputs "S2"
      = recordGet stateTwoSetsShared.parameterSetInputs "S2" := by
  have h := c8_set_field_value_frame stateTwoSetsShared "Shared"
    (JSValue.str "new")
    [ { name := "Shared", required := false, common := false,
        tooltip := "t1", position := some 0, inputType := .text,
        value := .str "" } ]
    (by decide) (by decide)
  exact ⟨h.1, h.2.2.2.2.1 "S2" (by decide)⟩

/-- Claim C9: the state posted by `persistState` is exactly the current
three-member `ViewState`, and restoring it through `onSetState` makes
the resulting state deep-equal to the snapshotted one, from any
intervening state. -/
theorem c9_snapshot_restore_roundtrip (s t : ViewState) :
    (persistState s).events = [ViewEvent.postMessage (OutMessage.setState s)] ∧
    (onSetState s t).state = s := by
  refine ⟨rfl, ?_⟩
  unfold onSetState
  split <;> rfl

/-- Claim C10: restoring a state whose command is `null` first
overwrites all three state members and only then throws from the
renderer-notification step, before any notification is emitted; the
mutation is not rolled back, so restoring the no-command state always
raises. -/
theorem c10_restore_null_command (newState s : ViewState)
    (h : newState.command = none) :
    (onSetState newState s).state = newState ∧
    (onSetState newState s).events = [] ∧
    (onSetState newState s).error = some "this.command is null" := by
  simp [onSetState, h]

/-- Claim C10 witness: restoring the persisted null-command state over
the initial state keeps the restored members and raises. -/
theorem c10_restore_null_command_witness :
    (onSetState stateNullCommand initialViewState).state = stateNullCommand ∧
    (onSetState stateNullCommand initialViewState).events = [] ∧
    (onSetState stateNullCommand initialViewState).error
      = some "this.command is null" :=
  c10_restore_null_command stateNullCommand initialViewState (by decide)
